import Mathlib

/-!
Shallow embedding of the loggero named-logger library.

The source contains two iterations of the logger module:
* Variant A: global enablement and global threshold live on the default
  `global` logger instance (`_global._enabled`, `_global._level`);
* Variant B: a module-level `_enableAll` flag, a prototype `defaultEnabled`
  default of `false`, and a per-instance-only threshold check.

Loggers are mutable objects aliased by reference; we model the module state
as an explicit world: a heap of logger records addressed by allocation index
(reference identity), the name-to-logger registry, the exclusivity reference
`_only`, and (Variant B) the `_enableAll` flag.  JavaScript objects delivered
to sinks are modelled as association lists of string keys to values, so the
actual key names of a payload are observable.  External side effects (sink
writes) are returned as an explicit emission list; the current time is an
explicit parameter standing for `Date.getTime()`.
-/

namespace Loggero

/-- JavaScript values that flow through the logger: strings, numbers,
booleans and array-like argument sequences. -/
inductive JSValue where
  | str : String → JSValue
  | num : Nat → JSValue
  | bool : Bool → JSValue
  | arr : List JSValue → JSValue

/-- A JavaScript object delivered to a sink, as an association list of
field names to values (first binding wins on lookup). -/
abbrev Payload := List (String × JSValue)

/-- First-match field lookup in a payload object. -/
def lookupField : Payload → String → Option JSValue
  | [], _ => none
  | (k, v) :: rest, f => if k = f then some v else lookupField rest f

/-- An emission: the identity of the stream written to, and the payload. -/
abbrev Emission := Nat × Payload

/-- `createPayload(name, level, data)` from the source: builds the object
`\x7b date: getDate(), level: level, name: name, data: data \x7d`, with
`getDate()` (the current epoch-ms time) passed in explicitly as `now`. -/
def createPayload (now : Nat) (name : String) (level : Nat) (data : JSValue) : Payload :=
  [("date", JSValue.num now), ("level", JSValue.num level),
   ("name", JSValue.str name), ("data", data)]

/-- The named severity levels of the default level mapping. -/
inductive LevelName where
  | log | info | warn | error
deriving DecidableEq, Repr

/-- Modelled from the spec: the `levels` module required by the Variant-B
iteration is not under src/ (only `require('./levels')` appears); the spec
gives the default set info/log = 1, warn = 2, error = 3, which matches the
inline mapping `\x7b log: 1, info: 1, warn: 2, error: 3 \x7d` of the
Variant-A iteration. -/
def levels : LevelName → Nat
  | .log => 1
  | .info => 1
  | .warn => 2
  | .error => 3

/-- A logger instance record: `name`, `_enabled`, `_stream` (stream identity),
`_level` (threshold rank). -/
structure Logger where
  name : String
  enabled : Bool
  stream : Nat
  level : Nat
deriving DecidableEq, Repr

/-- Heap read through a logger reference (`this`).  Out-of-range indices
never arise for claims, which hypothesise a live logger. -/
def getLogger (heap : List Logger) (i : Nat) : Logger :=
  (heap[i]?).getD ⟨"", false, 0, 0⟩

/-- Constructor options `\x7b enabled, stream, level \x7d`, each optional. -/
structure Options where
  enabled : Option Bool
  stream : Option Nat
  level : Option Nat
deriving DecidableEq, Repr

/-- Identity of the built-in console stream adapter used as default. -/
def consoleStream : Nat := 0

/-- `Logger.prototype.defaultEnabled = false` from the Variant-B iteration. -/
def defaultEnabled : Bool := false

/-- First-match lookup in the `_loggers` registry (`_loggers[name]`);
the constructor prepends, so the most recent binding for a name wins. -/
def lookupReg : List (String × Nat) → String → Option Nat
  | [], _ => none
  | (n, i) :: rest, name => if n = name then some i else lookupReg rest name

/-! ## Variant B: the iteration with `_enableAll` and `defaultEnabled` -/

/-- Module state of the Variant-B iteration: the logger heap, the
`_loggers` registry, the `_only` exclusivity reference and `_enableAll`. -/
structure WorldB where
  heap : List Logger
  registry : List (String × Nat)
  only : Option Nat
  enableAll : Bool
deriving DecidableEq, Repr

/-- Dereference a logger in a Variant-B world. -/
def WorldB.logger (w : WorldB) (i : Nat) : Logger :=
  getLogger w.heap i

/-- `new Logger(name, options)` (Variant B): fills in option defaults
(`enabled` defaults to `defaultEnabled`, `stream` to the console adapter,
`level` to `levels.log`, where a level of `0` is falsy in JavaScript and also
takes the default), allocates the record and registers it under `name`. -/
def newLoggerB (w : WorldB) (name : String) (options : Options) : WorldB × Nat :=
  let enabled := options.enabled.getD defaultEnabled
  let stream := options.stream.getD consoleStream
  let level := match options.level with
    | none => levels .log
    | some l => if l = 0 then levels .log else l
  let i := w.heap.length
  ({ w with heap := w.heap ++ [⟨name, enabled, stream, level⟩],
            registry := (name, i) :: w.registry }, i)

/-- `Logger.prototype.create(name, options)` (Variant B): returns the
registered logger when `name` is taken, otherwise constructs a new one. -/
def createB (w : WorldB) (name : String) (options : Options) : WorldB × Nat :=
  match lookupReg w.registry name with
  | some i => (w, i)
  | none => newLoggerB w name options

/-- `Logger.prototype.find(name)` (Variant B). -/
def findB (w : WorldB) (name : String) : Option Nat :=
  lookupReg w.registry name

/-- `Logger.prototype.pipe(stream)` (Variant B): replaces the current
stream when the argument differs, and returns the argument. -/
def pipeB (w : WorldB) (i : Nat) (s : Nat) : WorldB × Nat :=
  if s ≠ (w.logger i).stream then
    ({ w with heap := w.heap.set i { w.logger i with stream := s } }, s)
  else
    (w, s)

/-- `Logger.prototype.isEnabled(level)` (Variant B):
`(_enableAll || this._enabled) && (this._level <= level) && (!_only || _only === this)`. -/
def isEnabledB (w : WorldB) (i : Nat) (level : Nat) : Bool :=
  (w.enableAll || (w.logger i).enabled)
    && decide ((w.logger i).level ≤ level)
    && (decide (w.only = none) || decide (w.only = some i))

/-- The defaulting `level = level || levels.info` at the top of `write`: a
rank of `0` is falsy in JavaScript and is replaced by `levels.info`. -/
def defaultLevel (level : Nat) : Nat :=
  if level = 0 then levels .info else level

/-- `Logger.prototype.write(level, data)` (Variant B): the level argument is
defaulted first; when `isEnabled` holds, one payload is written to this
logger's stream; the logger itself (its reference `i`) is returned and the
module state is untouched. -/
def writeB (w : WorldB) (i : Nat) (now : Nat) (level : Nat) (data : JSValue) :
    WorldB × Nat × List Emission :=
  let level := defaultLevel level
  if isEnabledB w i level then
    (w, i, [((w.logger i).stream, createPayload now (w.logger i).name level data)])
  else
    (w, i, [])

/-- The per-level convenience method `Logger.prototype[level]` (Variant B):
forwards its full `arguments` sequence as `data` to `write(levels[level], arguments)`. -/
def levelMethodB (w : WorldB) (i : Nat) (ln : LevelName) (now : Nat)
    (args : List JSValue) : WorldB × Nat × List Emission :=
  writeB w i now (levels ln) (JSValue.arr args)

/-- Replace the record a logger reference points to. -/
def WorldB.setLogger (w : WorldB) (i : Nat) (L : Logger) : WorldB :=
  { w with heap := w.heap.set i L }

/-- `Logger.prototype.enable()` (Variant B). -/
def enableB (w : WorldB) (i : Nat) : WorldB × Nat :=
  (w.setLogger i { w.logger i with enabled := true }, i)

/-- `Logger.prototype.disable()` (Variant B). -/
def disableB (w : WorldB) (i : Nat) : WorldB × Nat :=
  (w.setLogger i { w.logger i with enabled := false }, i)

/-- `Logger.prototype.only()` (Variant B): claims exclusivity only when
nobody holds it (`if (!_only) _only = this`). -/
def onlyB (w : WorldB) (i : Nat) : WorldB × Nat :=
  (if w.only = none then { w with only := some i } else w, i)

/-- `Logger.prototype.all()` (Variant B): clears exclusivity unconditionally. -/
def allB (w : WorldB) (i : Nat) : WorldB × Nat :=
  ({ w with only := none }, i)

/-- `Logger.prototype.enableAll()` (Variant B). -/
def enableAllB (w : WorldB) (i : Nat) : WorldB × Nat :=
  ({ w with enableAll := true }, i)

/-- `Logger.prototype.disableAll()` (Variant B). -/
def disableAllB (w : WorldB) (i : Nat) : WorldB × Nat :=
  ({ w with enableAll := false }, i)

/-- `Logger.prototype.level(level)` (Variant B): sets the threshold. -/
def levelSetB (w : WorldB) (i : Nat) (n : Nat) : WorldB × Nat :=
  (w.setLogger i { w.logger i with level := n }, i)

/-- Module initialisation of the Variant-B iteration: empty registry, no
exclusivity, `_enableAll` unset, then `_global = new Logger('global')`. -/
def initWorldB : WorldB :=
  (newLoggerB ⟨[], [], none, false⟩ "global" ⟨none, none, none⟩).1

/-- One invocation of any mutating or observing operation of the Variant-B
surface, tagged with the logger reference it is called on. -/
inductive OpB where
  | create (i : Nat) (name : String) (options : Options)
  | find (i : Nat) (name : String)
  | pipe (i : Nat) (s : Nat)
  | write (i : Nat) (now : Nat) (level : Nat) (data : JSValue)
  | levelMethod (i : Nat) (ln : LevelName) (now : Nat) (args : List JSValue)
  | enable (i : Nat)
  | disable (i : Nat)
  | only (i : Nat)
  | all (i : Nat)
  | enableAll (i : Nat)
  | disableAll (i : Nat)
  | levelSet (i : Nat) (n : Nat)

/-- The state transition each Variant-B operation performs. -/
def stepB (w : WorldB) : OpB → WorldB
  | .create _ name options => (createB w name options).1
  | .find _ _ => w
  | .pipe i s => (pipeB w i s).1
  | .write i now level data => (writeB w i now level data).1
  | .levelMethod i ln now args => (levelMethodB w i ln now args).1
  | .enable i => (enableB w i).1
  | .disable i => (disableB w i).1
  | .only i => (onlyB w i).1
  | .all i => (allB w i).1
  | .enableAll i => (enableAllB w i).1
  | .disableAll i => (disableAllB w i).1
  | .levelSet i n => (levelSetB w i n).1

/-! ## Variant A: the iteration with global state on the `global` logger -/

/-- Module state of the Variant-A iteration read by its filtering decision:
the logger heap (the default `global` logger is heap index 0, carrying the
global enabled flag and global threshold) and the `_only` reference. -/
structure WorldA where
  heap : List Logger
  only : Option Nat
deriving DecidableEq, Repr

/-- Dereference a logger in a Variant-A world. -/
def WorldA.logger (w : WorldA) (i : Nat) : Logger :=
  getLogger w.heap i

/-- `Logger.prototype.isEnabled(level)` (Variant A):
`if (!_global._enabled) return false;` then
`this._enabled && (_global._level <= level || this._level <= level) && (!_only || _only === this)`. -/
def isEnabledA (w : WorldA) (i : Nat) (level : Nat) : Bool :=
  if !(w.logger 0).enabled then
    false
  else
    (w.logger i).enabled
      && (decide ((w.logger 0).level ≤ level) || decide ((w.logger i).level ≤ level))
      && (decide (w.only = none) || decide (w.only = some i))

/-! ## Concrete worlds used to instantiate the theorems -/

/-- The record of the default `global` logger right after module load. -/
def globalLoggerB : Logger := ⟨"global", false, 0, 1⟩

/-- The record of an explicitly enabled logger named `svc` piped to stream 7. -/
def svcLogger : Logger := ⟨"svc", true, 7, 1⟩

/-- A world with the default `global` logger plus an enabled `svc` logger. -/
def wSvc : WorldB := (createB initWorldB "svc" ⟨some true, some 7, none⟩).1

/-- `wSvc` extended with a second enabled logger `b` piped to stream 8. -/
def wTwo : WorldB := (createB wSvc "b" ⟨some true, some 8, none⟩).1

/-- `wTwo` after `svc` (reference 1) claims exclusivity. -/
def wOnly : WorldB := (onlyB wTwo 1).1

/-! ## Theorems -/

/-- C1: In the Variant-B iteration, for every live logger `L` and level rank
`v`, `isEnabled(v)` returns true iff (`_enableAll` is set or `L`'s own enabled
flag is set) and `L`'s threshold is at most `v` and (the exclusivity reference
is unset or refers to `L` itself). -/
theorem isEnabledB_iff (w : WorldB) (i : Nat) (L : Logger) (v : Nat)
    (h : w.heap[i]? = some L) :
    isEnabledB w i v = true ↔
      ((w.enableAll = true ∨ L.enabled = true) ∧ L.level ≤ v ∧
        (w.only = none ∨ w.only = some i)) := by
  have hL : w.logger i = L := by simp [WorldB.logger, getLogger, h]
  simp [isEnabledB, hL, Bool.or_eq_true, Bool.and_eq_true, decide_eq_true_iff,
    and_assoc]

/-- C1 witness: evaluated at the freshly loaded world's `global` logger. -/
theorem isEnabledB_iff_witness :
    initWorldB.heap[0]? = some globalLoggerB ∧
    (isEnabledB initWorldB 0 2 = true ↔
      ((initWorldB.enableAll = true ∨ globalLoggerB.enabled = true) ∧
        globalLoggerB.level ≤ 2 ∧
        (initWorldB.only = none ∨ initWorldB.only = some 0))) :=
  ⟨by decide, isEnabledB_iff initWorldB 0 globalLoggerB 2 (by decide)⟩

/-- C2: In the Variant-A iteration, for every live logger `L` and level rank
`v`, `isEnabled(v)` returns true iff the global enabled flag is set and (the
global threshold is at most `v` or `L`'s threshold is at most `v`) and `L`'s
own enabled flag is set and (the exclusivity reference is unset or refers to
`L` itself). -/
theorem isEnabledA_iff (w : WorldA) (i : Nat) (L g : Logger) (v : Nat)
    (h : w.heap[i]? = some L) (hg : w.heap[0]? = some g) :
    isEnabledA w i v = true ↔
      (g.enabled = true ∧ (g.level ≤ v ∨ L.level ≤ v) ∧ L.enabled = true ∧
        (w.only = none ∨ w.only = some i)) := by
  have hL : w.logger i = L := by simp [WorldA.logger, getLogger, h]
  have hG : w.logger 0 = g := by simp [WorldA.logger, getLogger, hg]
  unfold isEnabledA
  rw [hL, hG]
  by_cases hge : g.enabled = true
  · simp [hge, Bool.or_eq_true, Bool.and_eq_true, decide_eq_true_iff]
    tauto
  · simp [Bool.not_eq_true] at hge
    simp [hge]

/-- C2 witness: a Variant-A world whose `global` logger is enabled with
threshold 1 and whose logger 1 is enabled with threshold 2. -/
theorem isEnabledA_iff_witness :
    (WorldA.mk [⟨"global", true, 0, 1⟩, ⟨"a", true, 0, 2⟩] none).heap[1]? =
        some ⟨"a", true, 0, 2⟩ ∧
    (WorldA.mk [⟨"global", true, 0, 1⟩, ⟨"a", true, 0, 2⟩] none).heap[0]? =
        some ⟨"global", true, 0, 1⟩ ∧
    (isEnabledA (WorldA.mk [⟨"global", true, 0, 1⟩, ⟨"a", true, 0, 2⟩] none) 1 1 = true ↔
      ((true : Bool) = true ∧ ((1 : Nat) ≤ 1 ∨ (2 : Nat) ≤ 1) ∧ (true : Bool) = true ∧
        ((none : Option Nat) = none ∨ (none : Option Nat) = some 1))) :=
  ⟨by decide, by decide,
    isEnabledA_iff (WorldA.mk [⟨"global", true, 0, 1⟩, ⟨"a", true, 0, 2⟩] none)
      1 ⟨"a", true, 0, 2⟩ ⟨"global", true, 0, 1⟩ 1 (by decide) (by decide)⟩

/-- C3: `create(n, options)` on an already registered name returns the
registered logger and leaves the whole module state unchanged, whatever the
second call's options are. -/
theorem createB_existing (w : WorldB) (n : String) (i : Nat) (o : Options)
    (h : lookupReg w.registry n = some i) :
    createB w n o = (w, i) := by
  unfold createB
  rw [h]

/-- C3 witness: a second `create('svc', ...)` with different options returns
the registered reference 1 and the unchanged world. -/
theorem createB_existing_witness :
    lookupReg wSvc.registry "svc" = some 1 ∧
    createB wSvc "svc" ⟨some false, some 9, some 3⟩ = (wSvc, 1) :=
  ⟨by decide, createB_existing wSvc "svc" 1 ⟨some false, some 9, some 3⟩ (by decide)⟩

/-- C4: `only()` claims exclusivity exactly when nobody holds it: from a free
state it sets the reference to the caller, from a claimed state it changes
nothing (no transfer); the reference designates at most one logger, and every
operation of the surface either keeps the reference, clears it, or claims it
for the caller of `only()` from a free state. -/
theorem only_first_claim_wins (w : WorldB) (i : Nat) :
    (w.only = none → (onlyB w i).1.only = some i) ∧
    (∀ j, w.only = some j → (onlyB w i).1 = w) ∧
    (∀ a b, w.only = some a → w.only = some b → a = b) ∧
    (∀ op, (stepB w op).only = w.only ∨ (stepB w op).only = none ∨
        (w.only = none ∧ ∃ k, op = OpB.only k ∧ (stepB w op).only = some k)) := by
  refine ⟨fun h => by simp [onlyB, h], fun j h => by simp [onlyB, h],
    fun a b ha hb => by rw [ha] at hb; exact Option.some.inj hb, fun op => ?_⟩
  cases op with
  | create j n o =>
    left
    simp only [stepB, createB]
    split
    · rfl
    · rfl
  | find j n => left; rfl
  | pipe j s =>
    left
    simp only [stepB, pipeB]
    split
    · rfl
    · rfl
  | write j now level data =>
    left
    simp only [stepB, writeB]
    split <;> rfl
  | levelMethod j ln now args =>
    left
    simp only [stepB, levelMethodB, writeB]
    split <;> rfl
  | enable j => left; rfl
  | disable j => left; rfl
  | only j =>
    by_cases h : w.only = none
    · right; right
      exact ⟨h, j, rfl, by simp [stepB, onlyB, h]⟩
    · left
      simp [stepB, onlyB, h]
  | all j => right; left; rfl
  | enableAll j => left; rfl
  | disableAll j => left; rfl
  | levelSet j n => left; rfl

/-- C4 witness: logger 0 claims exclusivity in the fresh world; logger 1's
subsequent `only()` is then a no-op. -/
theorem only_first_claim_wins_witness :
    (onlyB initWorldB 0).1.only = some 0 ∧
    (onlyB (onlyB initWorldB 0).1 1).1 = (onlyB initWorldB 0).1 :=
  ⟨(only_first_claim_wins initWorldB 0).1 (by decide),
    ((only_first_claim_wins (onlyB initWorldB 0).1 1).2.1) 0 (by decide)⟩

/-- C5: while some other logger holds the exclusivity reference, a logger's
`write` emits nothing at any level, whatever its enabled flag and threshold;
`all()` clears the reference unconditionally, after which the filtering
decision is just the enablement-and-threshold test for every logger. -/
theorem only_silences_and_all_restores (w : WorldB) (a i j : Nat)
    (h : w.only = some a) (hne : i ≠ a) :
    (∀ now l d, (writeB w i now l d).2.2 = []) ∧
    (allB w j).1.only = none ∧
    (∀ k v, isEnabledB (allB w j).1 k v =
      ((w.enableAll || (w.logger k).enabled) && decide ((w.logger k).level ≤ v))) := by
  have hdis : ∀ v, isEnabledB w i v = false := by
    intro v
    unfold isEnabledB
    have h1 : decide (w.only = none) = false := by simp [h]
    have h2 : decide (w.only = some i) = false := by
      rw [h]
      exact decide_eq_false fun hh => hne (Option.some.inj hh).symm
    rw [h1, h2]
    simp
  refine ⟨fun now l d => ?_, rfl, fun k v => ?_⟩
  · simp only [writeB]
    simp [hdis]
  · simp [isEnabledB, allB, WorldB.logger, getLogger]

/-- C5 witness: `svc` (reference 1) holds exclusivity in `wOnly`; the enabled,
in-threshold logger `b` (reference 2) emits nothing, and `all()` frees it. -/
theorem only_silences_witness :
    wOnly.only = some 1 ∧
    (writeB wOnly 2 5 3 (JSValue.str "x")).2.2 = [] ∧
    (allB wOnly 0).1.only = none :=
  ⟨by decide,
   (only_silences_and_all_restores wOnly 1 2 0 (by decide) (by decide)).1 5 3
     (JSValue.str "x"),
   (only_silences_and_all_restores wOnly 1 2 0 (by decide) (by decide)).2.1⟩

/-- C6 (amended): every payload a `write` delivers to a sink is an object
with exactly the fields `date` (epoch-ms time), `level` (the rank after the
zero default), `name` (the emitting logger's name) and `data` (exactly the
caller-supplied value) — the timestamp field is named `date`. -/
theorem write_payload_fields (w : WorldB) (i : Nat) (L : Logger) (now l : Nat)
    (d : JSValue) (e : Emission) (h : w.heap[i]? = some L)
    (he : e ∈ (writeB w i now l d).2.2) :
    e.2.map Prod.fst = ["date", "level", "name", "data"] ∧
    lookupField e.2 "date" = some (JSValue.num now) ∧
    lookupField e.2 "level" = some (JSValue.num (defaultLevel l)) ∧
    lookupField e.2 "name" = some (JSValue.str L.name) ∧
    lookupField e.2 "data" = some d := by
  have hL : w.logger i = L := by simp [WorldB.logger, getLogger, h]
  simp only [writeB] at he
  split at he
  · simp at he
    subst he
    rw [hL]
    exact ⟨rfl, rfl, rfl, rfl, rfl⟩
  · simp at he

/-- C6 witness: the payload emitted by a `write` at level 2 on the enabled
`svc` logger, with its key list and `data` field evaluated. -/
theorem write_payload_fields_witness :
    (createPayload 5 "svc" 2 (JSValue.str "x")).map Prod.fst =
      ["date", "level", "name", "data"] ∧
    lookupField (createPayload 5 "svc" 2 (JSValue.str "x")) "data" =
      some (JSValue.str "x") := by
  have hth := write_payload_fields wSvc 1 svcLogger 5 2 (JSValue.str "x")
    ((wSvc.logger 1).stream, createPayload 5 (wSvc.logger 1).name 2 (JSValue.str "x"))
    (by decide) (List.mem_singleton.mpr rfl)
  exact ⟨hth.1, hth.2.2.2.2⟩

/-- C6 counterexample: a payload actually delivered to a sink has key list
`date, level, name, data`; no delivered payload carries a `timestamp` field. -/
theorem payload_has_date_not_timestamp :
    (writeB wSvc 1 5 2 (JSValue.str "x")).2.2.map (fun e => e.2.map Prod.fst) =
      [["date", "level", "name", "data"]] ∧
    "timestamp" ∉ (createPayload 5 "svc" 2 (JSValue.str "x")).map Prod.fst :=
  ⟨by decide, by decide⟩

/-- C7: `pipe(s)` on a live logger with `s` different from the current stream
returns `s`, installs `s` as the logger's stream, and every emission of a
subsequent `write` by this logger goes to `s` and not to the old stream. -/
theorem pipe_redirects (w : WorldB) (i : Nat) (L : Logger) (s : Nat)
    (h : w.heap[i]? = some L) (hs : s ≠ L.stream) :
    (pipeB w i s).2 = s ∧
    ((pipeB w i s).1.logger i).stream = s ∧
    (∀ now l d e, e ∈ (writeB (pipeB w i s).1 i now l d).2.2 →
      e.1 = s ∧ e.1 ≠ L.stream) := by
  have hL : w.logger i = L := by simp [WorldB.logger, getLogger, h]
  have hlen : i < w.heap.length := by
    rcases List.getElem?_eq_some.mp h with ⟨hlt, _⟩
    exact hlt
  have hw : pipeB w i s = ({ w with heap := w.heap.set i { L with stream := s } }, s) := by
    unfold pipeB
    rw [hL, if_pos hs]
  have hli : (pipeB w i s).1.logger i = { L with stream := s } := by
    rw [hw]
    simp [WorldB.logger, getLogger, List.getElem?_set_self hlen]
  refine ⟨by rw [hw], by rw [hli], fun now l d e he => ?_⟩
  simp only [writeB] at he
  split at he
  · simp at he
    subst he
    rw [hli]
    exact ⟨rfl, hs⟩
  · simp at he

/-- C7 witness: repiping `svc` from stream 7 to stream 9. -/
theorem pipe_redirects_witness :
    wSvc.heap[1]? = some svcLogger ∧ (9 : Nat) ≠ svcLogger.stream ∧
    (pipeB wSvc 1 9).2 = 9 ∧ ((pipeB wSvc 1 9).1.logger 1).stream = 9 :=
  ⟨by decide, by decide,
   (pipe_redirects wSvc 1 svcLogger 9 (by decide) (by decide)).1,
   (pipe_redirects wSvc 1 svcLogger 9 (by decide) (by decide)).2.1⟩

/-- C8: each per-level convenience method forwards exactly
`write(levels[level], arguments)`, and whenever it emits, the payload's
`data` field is the full argument sequence, order and count preserved. -/
theorem levelMethod_args_preserved (w : WorldB) (i : Nat) (ln : LevelName)
    (now : Nat) (args : List JSValue) :
    levelMethodB w i ln now args = writeB w i now (levels ln) (JSValue.arr args) ∧
    (∀ e ∈ (levelMethodB w i ln now args).2.2,
      lookupField e.2 "data" = some (JSValue.arr args)) := by
  refine ⟨rfl, fun e he => ?_⟩
  simp only [levelMethodB, writeB] at he
  split at he
  · simp at he
    subst he
    rfl
  · simp at he

/-- C8 witness: `warn` called with the two arguments x and y on the enabled
`svc` logger carries the two-element sequence, in order, as the `data` field
of the emitted payload. -/
theorem levelMethod_args_preserved_witness :
    levelMethodB wSvc 1 .warn 5 [JSValue.str "x", JSValue.str "y"] =
      writeB wSvc 1 5 (levels .warn)
        (JSValue.arr [JSValue.str "x", JSValue.str "y"]) ∧
    lookupField (createPayload 5 (wSvc.logger 1).name 2
        (JSValue.arr [JSValue.str "x", JSValue.str "y"])) "data" =
      some (JSValue.arr [JSValue.str "x", JSValue.str "y"]) :=
  ⟨(levelMethod_args_preserved wSvc 1 .warn 5 [JSValue.str "x", JSValue.str "y"]).1,
   (levelMethod_args_preserved wSvc 1 .warn 5 [JSValue.str "x", JSValue.str "y"]).2
     ((wSvc.logger 1).stream, createPayload 5 (wSvc.logger 1).name 2
        (JSValue.arr [JSValue.str "x", JSValue.str "y"]))
     (List.mem_singleton.mpr rfl)⟩

/-- C9: `write(level, data)` always returns the logger itself and never
mutates the module state; when the filtering decision (on the defaulted
level) is false, no payload reaches any stream. -/
theorem write_returns_self_and_silent (w : WorldB) (i : Nat) (now l : Nat)
    (d : JSValue) :
    (writeB w i now l d).1 = w ∧ (writeB w i now l d).2.1 = i ∧
    (isEnabledB w i (defaultLevel l) = false →
      (writeB w i now l d).2.2 = []) := by
  simp only [writeB]
  split
  · next hc => exact ⟨rfl, rfl, fun hf => absurd hc (by simp [hf])⟩
  · exact ⟨rfl, rfl, fun _ => rfl⟩

/-- C9 witness: a filtered-out `write` on the disabled `global` logger is a
silent no-op that still returns the logger. -/
theorem write_returns_self_and_silent_witness :
    (writeB initWorldB 0 5 3 (JSValue.str "x")).1 = initWorldB ∧
    (writeB initWorldB 0 5 3 (JSValue.str "x")).2.1 = 0 ∧
    (writeB initWorldB 0 5 3 (JSValue.str "x")).2.2 = [] := by
  have hth := write_returns_self_and_silent initWorldB 0 5 3 (JSValue.str "x")
  exact ⟨hth.1, hth.2.1, hth.2.2 (by decide)⟩

/-- C10: a Variant-B logger constructed without an `enabled` option takes the
prototype default `defaultEnabled = false`; while `_enableAll` is unset, it
emits nothing at any level. -/
theorem fresh_logger_silent (w : WorldB) (n : String) (o : Options)
    (he : o.enabled = none) (ha : w.enableAll = false) :
    defaultEnabled = false ∧
    ((newLoggerB w n o).1.logger (newLoggerB w n o).2).enabled = false ∧
    (∀ now v d, (writeB (newLoggerB w n o).1 (newLoggerB w n o).2 now v d).2.2 = []) := by
  have hlog : (newLoggerB w n o).1.logger (newLoggerB w n o).2
      = ⟨n, false, o.stream.getD consoleStream,
          match o.level with
          | none => levels .log
          | some l => if l = 0 then levels .log else l⟩ := by
    simp [newLoggerB, WorldB.logger, getLogger, he, defaultEnabled,
      List.getElem?_concat_length]
  have hall : (newLoggerB w n o).1.enableAll = false := by
    simp [newLoggerB, ha]
  have hdis : ∀ v, isEnabledB (newLoggerB w n o).1 (newLoggerB w n o).2 v = false := by
    intro v
    unfold isEnabledB
    rw [hlog, hall]
    rfl
  refine ⟨rfl, by rw [hlog], fun now v d => ?_⟩
  simp only [writeB]
  simp [hdis]

/-- C10 witness: a logger created with empty options in the fresh world is
disabled and its `write` at level 3 emits nothing. -/
theorem fresh_logger_silent_witness :
    defaultEnabled = false ∧
    ((newLoggerB initWorldB "fresh" ⟨none, none, none⟩).1.logger
        (newLoggerB initWorldB "fresh" ⟨none, none, none⟩).2).enabled = false ∧
    (writeB (newLoggerB initWorldB "fresh" ⟨none, none, none⟩).1
        (newLoggerB initWorldB "fresh" ⟨none, none, none⟩).2 5 3
        (JSValue.str "x")).2.2 = [] := by
  have hth := fresh_logger_silent initWorldB "fresh" ⟨none, none, none⟩ rfl rfl
  exact ⟨hth.1, hth.2.1, hth.2.2 5 3 (JSValue.str "x")⟩

end Loggero
